import Mathlib

/-!
# Verification of the generic MultiKueue external-framework config manager

Shallow embedding of `pkg/controller/jobs/generic/config.go` together with
the parts of `k8s.io/apimachinery/pkg/runtime/schema` that it calls
(`ParseKindArg` and `GroupVersionKind.String`).

The Go `map[string]MultiKueueExternalFramework` is modelled as an
association list with distinct keys; insertion replaces the value at an
existing key in place and otherwise appends, which matches Go map
semantics for every observation the claims make (lookup, size, the set of
key/value pairs).
-/

namespace Generic

/-- `schema.GroupVersionKind` from apimachinery. -/
structure GroupVersionKind where
  group : String
  version : String
  kind : String
deriving DecidableEq, Repr

/-- `GroupVersionKind.String()`:
`return gvk.Group + "/" + gvk.Version + ", Kind=" + gvk.Kind`. -/
def gvkToString (g : GroupVersionKind) : String :=
  g.group ++ "/" ++ g.version ++ ", Kind=" ++ g.kind

/-- Go `strings.Split(arg, ".")` for the single-character separator `"."`,
written over the character list so it computes by kernel reduction:
cut the string around every `'.'`. -/
def splitOnDotAux : List Char → List Char → List String
  | [], acc => [String.mk acc.reverse]
  | c :: rest, acc =>
      if c = '.' then String.mk acc.reverse :: splitOnDotAux rest []
      else splitOnDotAux rest (c :: acc)

/-- `strings.Split(arg, ".")`. -/
def splitOnDot (s : String) : List String :=
  splitOnDotAux s.data []

/-- `strings.Join(parts, ".")`. -/
def joinDot : List String → String
  | [] => ""
  | [s] => s
  | s :: rest => s ++ "." ++ joinDot rest

/-- The GVK half of `schema.ParseKindArg`:
`if strings.Count(arg, ".") >= 2 { s := strings.SplitN(arg, ".", 3);
gvk = &GroupVersionKind{Group: s[2], Version: s[1], Kind: s[0]} }`.
`strings.Count(arg, ".") >= 2` holds exactly when the full split yields at
least three pieces, and `SplitN(arg, ".", 3)` keeps the first two pieces
and rejoins the remainder on `"."`. The Go function's second return value
(`ParseGroupKind(arg)`) is never used by the code under study and is not
modelled. -/
def parseKindArg (arg : String) : Option GroupVersionKind :=
  match splitOnDot arg with
  | k :: v :: g0 :: rest =>
      some { group := joinDot (g0 :: rest), version := v, kind := k }
  | _ => none

/-- `configapi.MultiKueueExternalFramework` (kueue `apis/config/v1beta1`):
a single `Name` field. -/
structure MultiKueueExternalFramework where
  name : String
deriving DecidableEq, Repr

/-- The two error shapes produced by `validateConfig`. -/
inductive ValidateError where
  | nameRequired
  | invalidGVKFormat (name : String)
deriving DecidableEq, Repr

/-- `(cm *ConfigManager) validateConfig`: `Name` must be non-empty and
`schema.ParseKindArg(config.Name)` must yield a non-nil GVK. Returns
`none` on success (Go `nil` error). -/
def validateConfig (config : MultiKueueExternalFramework) : Option ValidateError :=
  if config.name = "" then some .nameRequired
  else
    match parseKindArg config.name with
    | none => some (.invalidGVKFormat config.name)
    | some _ => none

/-- The Go map underlying `ConfigManager.configs`, as an association list
with distinct keys. -/
abbrev ConfigMap := List (String × MultiKueueExternalFramework)

/-- Go map assignment `m[k] = v`: replace in place if the key is present,
otherwise append. -/
def mapInsert (k : String) (v : MultiKueueExternalFramework) :
    ConfigMap → ConfigMap
  | [] => [(k, v)]
  | (k', v') :: rest =>
      if k' = k then (k, v) :: rest else (k', v') :: mapInsert k v rest

/-- Go map read `m[k]`. -/
def mapLookup (k : String) : ConfigMap → Option MultiKueueExternalFramework
  | [] => none
  | (k', v') :: rest => if k' = k then some v' else mapLookup k rest

/-- `ConfigManager`. -/
structure ConfigManager where
  configs : ConfigMap
deriving DecidableEq, Repr

/-- `NewConfigManager()`. -/
def NewConfigManager : ConfigManager := { configs := [] }

/-- One iteration of the loop in `LoadConfigurations`, threading the map
being built and the `errors` slice (modelled by its length, since the
code only ever observes `len(errors)`). The branch ordering is exactly
the Go code's: `validateConfig` first, then the second `ParseKindArg`,
then the store. -/
def loadStep (acc : ConfigMap × Nat) (config : MultiKueueExternalFramework) :
    ConfigMap × Nat :=
  match validateConfig config with
  | some _ => (acc.1, acc.2 + 1)
  | none =>
      match parseKindArg config.name with
      | none => (acc.1, acc.2 + 1)
      | some gvk => (mapInsert (gvkToString gvk) config acc.1, acc.2)

/-- `(cm *ConfigManager) LoadConfigurations`: resets `cm.configs` to a
fresh empty map, folds the loop over the batch, and returns the updated
manager together with the error (`some n` models the non-nil
`"encountered n configuration errors"` error, `none` the nil error). -/
def LoadConfigurations (cm : ConfigManager)
    (configs : List MultiKueueExternalFramework) :
    ConfigManager × Option Nat :=
  let r := configs.foldl loadStep ([], 0)
  ({ cm with configs := r.1 }, if r.2 > 0 then some r.2 else none)

/-- `genericAdapter` (only its `gvk` field matters to these claims). -/
structure genericAdapter where
  gvk : GroupVersionKind
deriving DecidableEq, Repr

/-- `(cm *ConfigManager) GetAdapter`: present iff `gvk.String()` is a key
of the map; the returned adapter carries the queried GVK. `none` models
the Go `nil` return. -/
def GetAdapter (cm : ConfigManager) (gvk : GroupVersionKind) :
    Option genericAdapter :=
  match mapLookup (gvkToString gvk) cm.configs with
  | none => none
  | some _ => some { gvk := gvk }

/-- `(cm *ConfigManager) GetAllAdapters`: for each stored configuration,
re-parse its `Name`; skip (with a log line) the ones that do not parse,
and collect an adapter for each one that does. -/
def GetAllAdapters (cm : ConfigManager) : List genericAdapter :=
  cm.configs.filterMap fun p =>
    (parseKindArg p.2.name).map fun gvk => { gvk := gvk }

/-- The canonical identifier an entry is stored under, when its name
parses. -/
def entryKey (c : MultiKueueExternalFramework) : Option String :=
  (parseKindArg c.name).map gvkToString

/-! ## Basic lemmas about the embedded operations -/

theorem validateConfig_none_parse (c : MultiKueueExternalFramework)
    (h : validateConfig c = none) : ∃ g, parseKindArg c.name = some g := by
  unfold validateConfig at h
  split at h
  · exact absurd h (by simp)
  · cases hp : parseKindArg c.name with
    | none => rw [hp] at h; exact absurd h (by simp)
    | some g => exact ⟨g, rfl⟩

theorem loadStep_invalid (m : ConfigMap) (n : Nat)
    (c : MultiKueueExternalFramework) (e : ValidateError)
    (hv : validateConfig c = some e) : loadStep (m, n) c = (m, n + 1) := by
  simp [loadStep, hv]

theorem loadStep_valid (m : ConfigMap) (n : Nat)
    (c : MultiKueueExternalFramework) (g : GroupVersionKind)
    (hv : validateConfig c = none) (hp : parseKindArg c.name = some g) :
    loadStep (m, n) c = (mapInsert (gvkToString g) c m, n) := by
  simp [loadStep, hv, hp]

theorem mapLookup_mapInsert (k k' : String)
    (v : MultiKueueExternalFramework) (m : ConfigMap) :
    mapLookup k (mapInsert k' v m) =
      if k' = k then some v else mapLookup k m := by
  induction m with
  | nil => simp [mapInsert, mapLookup]
  | cons p rest ih =>
    obtain ⟨a, b⟩ := p
    by_cases h : a = k'
    · subst h
      by_cases hk : a = k <;> simp [mapInsert, mapLookup, hk]
    · by_cases hk : a = k
      · subst hk
        have hne : ¬ k' = a := fun hh => h hh.symm
        simp [mapInsert, mapLookup, h, hne]
      · simp [mapInsert, mapLookup, h, hk, ih]

theorem mapInsert_absent (k : String) (v : MultiKueueExternalFramework)
    (m : ConfigMap) (h : mapLookup k m = none) :
    mapInsert k v m = m ++ [(k, v)] := by
  induction m with
  | nil => simp [mapInsert]
  | cons p rest ih =>
    unfold mapLookup at h
    split at h
    · exact absurd h (by simp)
    · next hne =>
      have : ¬ p.1 = k := hne
      simp [mapInsert, this, ih h]

theorem mem_mapInsert (k : String) (v : MultiKueueExternalFramework)
    (m : ConfigMap) (p : String × MultiKueueExternalFramework)
    (h : p ∈ mapInsert k v m) : p = (k, v) ∨ p ∈ m := by
  induction m with
  | nil => simpa [mapInsert] using h
  | cons q rest ih =>
    unfold mapInsert at h
    split at h
    · rcases List.mem_cons.mp h with h' | h'
      · exact Or.inl h'
      · exact Or.inr (List.mem_cons.mpr (Or.inr h'))
    · rcases List.mem_cons.mp h with h' | h'
      · exact Or.inr (List.mem_cons.mpr (Or.inl h'))
      · rcases ih h' with h'' | h''
        · exact Or.inl h''
        · exact Or.inr (List.mem_cons.mpr (Or.inr h''))

/-- The error counter after the loop: one error per entry that fails
`validateConfig`, on top of whatever the counter held before. -/
theorem foldl_loadStep_snd (batch : List MultiKueueExternalFramework)
    (m : ConfigMap) (n : Nat) :
    (batch.foldl loadStep (m, n)).2 =
      n + batch.countP (fun c => (validateConfig c).isSome) := by
  induction batch generalizing m n with
  | nil => simp
  | cons c rest ih =>
    cases hv : validateConfig c with
    | some e =>
      rw [List.foldl_cons, loadStep_invalid m n c e hv, ih,
        List.countP_cons]
      simp [hv, Nat.add_assoc, Nat.add_comm 1]
    | none =>
      obtain ⟨g, hg⟩ := validateConfig_none_parse c hv
      rw [List.foldl_cons, loadStep_valid m n c g hv hg, ih,
        List.countP_cons]
      simp [hv]

/-- The map built by the loop ignores the error counter and the entries
that fail validation. -/
theorem foldl_loadStep_fst_filter (batch : List MultiKueueExternalFramework)
    (m : ConfigMap) (n n' : Nat) :
    (batch.foldl loadStep (m, n)).1 =
      ((batch.filter fun c => (validateConfig c).isNone).foldl
        loadStep (m, n')).1 := by
  induction batch generalizing m n n' with
  | nil => simp
  | cons c rest ih =>
    cases hv : validateConfig c with
    | some e =>
      rw [List.foldl_cons, loadStep_invalid m n c e hv]
      have hf : (c :: rest).filter (fun c => (validateConfig c).isNone)
          = rest.filter fun c => (validateConfig c).isNone := by
        simp [List.filter_cons, hv]
      rw [hf]
      exact ih m (n + 1) n'
    | none =>
      obtain ⟨g, hg⟩ := validateConfig_none_parse c hv
      have hf : (c :: rest).filter (fun c => (validateConfig c).isNone)
          = c :: rest.filter fun c => (validateConfig c).isNone := by
        simp [List.filter_cons, hv]
      rw [List.foldl_cons, loadStep_valid m n c g hv hg, hf,
        List.foldl_cons, loadStep_valid m n' c g hv hg]
      exact ih _ n n'

theorem loadStep_preserves_key (k : String) (m : ConfigMap) (n : Nat)
    (c : MultiKueueExternalFramework) (h : (mapLookup k m).isSome) :
    (mapLookup k (loadStep (m, n) c).1).isSome := by
  cases hv : validateConfig c with
  | some e => rw [loadStep_invalid m n c e hv]; exact h
  | none =>
    obtain ⟨g, hg⟩ := validateConfig_none_parse c hv
    rw [loadStep_valid m n c g hv hg]
    show (mapLookup k (mapInsert (gvkToString g) c m)).isSome
    rw [mapLookup_mapInsert]
    split
    · rfl
    · exact h

theorem foldl_loadStep_preserves_key (batch : List MultiKueueExternalFramework)
    (k : String) :
    ∀ p : ConfigMap × Nat, (mapLookup k p.1).isSome →
      (mapLookup k (batch.foldl loadStep p).1).isSome := by
  induction batch with
  | nil => intro p h; exact h
  | cons c rest ih =>
    intro p h
    rw [List.foldl_cons]
    apply ih
    obtain ⟨m, n⟩ := p
    exact loadStep_preserves_key k m n c h

theorem foldl_loadStep_key_present (batch : List MultiKueueExternalFramework)
    (c : MultiKueueExternalFramework) (g : GroupVersionKind)
    (hv : validateConfig c = none) (hp : parseKindArg c.name = some g) :
    ∀ p : ConfigMap × Nat, c ∈ batch →
      (mapLookup (gvkToString g) (batch.foldl loadStep p).1).isSome := by
  induction batch with
  | nil => intro p hc; cases hc
  | cons d rest ih =>
    intro p hc
    rw [List.foldl_cons]
    rcases List.mem_cons.mp hc with h | h
    · subst h
      apply foldl_loadStep_preserves_key
      obtain ⟨m, n⟩ := p
      rw [loadStep_valid m n c g hv hp]
      show (mapLookup (gvkToString g) (mapInsert (gvkToString g) c m)).isSome
      rw [mapLookup_mapInsert]
      simp
    · exact ih _ h

theorem mapLookup_append_single_none (k k' : String)
    (v : MultiKueueExternalFramework) (m : ConfigMap)
    (h : mapLookup k' m = none) (hne : ¬ k = k') :
    mapLookup k' (m ++ [(k, v)]) = none := by
  induction m with
  | nil => simp [mapLookup, hne]
  | cons p rest ih =>
    obtain ⟨a, b⟩ := p
    by_cases hq : a = k'
    · rw [mapLookup, if_pos hq] at h
      exact absurd h (by simp)
    · rw [mapLookup, if_neg hq] at h
      rw [List.cons_append, mapLookup, if_neg hq]
      exact ih h

/-- When every entry validates and all canonical keys are fresh and
pairwise distinct, the loop appends one binding per entry. -/
theorem foldl_loadStep_all_valid_fresh (batch : List MultiKueueExternalFramework) :
    ∀ (m : ConfigMap) (n : Nat),
      (∀ c ∈ batch, validateConfig c = none) →
      ((batch.map entryKey).Nodup) →
      (∀ c ∈ batch, ∀ k, entryKey c = some k → mapLookup k m = none) →
      (batch.foldl loadStep (m, n)).1.length = m.length + batch.length := by
  induction batch with
  | nil => intro m n _ _ _; simp
  | cons c rest ih =>
    intro m n hval hnd hfresh
    have hv : validateConfig c = none := hval c (List.mem_cons_self c rest)
    obtain ⟨g, hg⟩ := validateConfig_none_parse c hv
    have hkey : entryKey c = some (gvkToString g) := by simp [entryKey, hg]
    have hmem : mapLookup (gvkToString g) m = none :=
      hfresh c (List.mem_cons_self c rest) _ hkey
    rw [List.foldl_cons, loadStep_valid m n c g hv hg,
      mapInsert_absent _ _ _ hmem]
    have hrest : (rest.foldl loadStep (m ++ [(gvkToString g, c)], n)).1.length
        = (m ++ [(gvkToString g, c)]).length + rest.length := by
      apply ih
      · exact fun d hd => hval d (List.mem_cons_of_mem c hd)
      · exact (List.nodup_cons.mp (by simpa using hnd)).2
      · intro d hd k hk
        apply mapLookup_append_single_none _ _ _ _
          (hfresh d (List.mem_cons_of_mem c hd) k hk)
        intro hkk
        have hnotin : entryKey c ∉ rest.map entryKey :=
          (List.nodup_cons.mp (by simpa using hnd)).1
        apply hnotin
        rw [hkey, hkk, ← hk]
        exact List.mem_map_of_mem entryKey hd
    rw [hrest]
    simp [Nat.add_assoc, Nat.add_comm 1]

theorem foldl_loadStep_values_parse (batch : List MultiKueueExternalFramework) :
    ∀ p : ConfigMap × Nat, (∀ q ∈ p.1, (parseKindArg q.2.name).isSome) →
      ∀ q ∈ (batch.foldl loadStep p).1, (parseKindArg q.2.name).isSome := by
  induction batch with
  | nil => intro p h q hq; exact h q hq
  | cons c rest ih =>
    intro p h
    rw [List.foldl_cons]
    apply ih
    intro q hq
    obtain ⟨m, n⟩ := p
    cases hv : validateConfig c with
    | some e =>
      rw [loadStep_invalid m n c e hv] at hq
      exact h q hq
    | none =>
      obtain ⟨g, hg⟩ := validateConfig_none_parse c hv
      rw [loadStep_valid m n c g hv hg] at hq
      have hq' : q ∈ mapInsert (gvkToString g) c m := hq
      rcases mem_mapInsert _ _ _ _ hq' with h' | h'
      · subst h'
        simp [hg]
      · exact h q h'

theorem length_filterMap_all_some {α β : Type} (f : α → Option β)
    (l : List α) (h : ∀ a ∈ l, (f a).isSome) :
    (l.filterMap f).length = l.length := by
  induction l with
  | nil => rfl
  | cons a rest ih =>
    have ha := h a (List.mem_cons_self a rest)
    cases hf : f a with
    | none => rw [hf] at ha; simp at ha
    | some b =>
      simp [List.filterMap_cons, hf,
        ih fun x hx => h x (List.mem_cons_of_mem a hx)]

theorem splitOnDot_empty : splitOnDot "" = [""] := rfl

theorem splitOnDot_ne_empty (s : String) (h : 2 ≤ (splitOnDot s).length) :
    ¬ s = "" := by
  intro he
  subst he
  rw [splitOnDot_empty] at h
  exact absurd h (by decide)

theorem validateConfig_of_parts (c : MultiKueueExternalFramework)
    (h : 3 ≤ (splitOnDot c.name).length) :
    validateConfig c = none ∧ ∃ g, parseKindArg c.name = some g := by
  have hne : ¬ c.name = "" :=
    splitOnDot_ne_empty c.name (Nat.le_of_succ_le h)
  have hp : ∃ g, parseKindArg c.name = some g := by
    unfold parseKindArg
    cases hs : splitOnDot c.name with
    | nil => rw [hs] at h; simp at h
    | cons k rest =>
      cases rest with
      | nil => rw [hs] at h; simp at h
      | cons v rest' =>
        cases rest' with
        | nil => rw [hs] at h; simp at h
        | cons g0 rest'' => exact ⟨_, rfl⟩
  obtain ⟨g, hg⟩ := hp
  refine ⟨?_, g, hg⟩
  unfold validateConfig
  rw [if_neg hne, hg]

/-! ## The claims -/

/-- C1, as stated, is false: the group-less short form "Pod.v1" (and
likewise "Pod") does not parse — `ParseKindArg` yields a nil GVK for any
name with fewer than two dots — so validation rejects the entry and it is
not accepted into the mapping. -/
theorem c1_shortform_counterexample :
    validateConfig ⟨"Pod.v1"⟩ = some (.invalidGVKFormat "Pod.v1") ∧
    validateConfig ⟨"Pod"⟩ = some (.invalidGVKFormat "Pod") ∧
    parseKindArg "Pod.v1" = none ∧
    parseKindArg "Pod" = none ∧
    (LoadConfigurations NewConfigManager [⟨"Pod.v1"⟩]).1.configs = [] ∧
    (LoadConfigurations NewConfigManager [⟨"Pod.v1"⟩]).2 = some 1 := by
  decide

/-- C1 (amended): validation in Load succeeds exactly for the names the
parser accepts, namely those containing at least two dots (at least three
dot-separated parts). This covers the short form "Pod.v1." but not
"Pod.v1" or "Pod": every ConfigEntry whose Name splits into at least
three parts parses to a non-nil identifier and is accepted into the
mapping. -/
theorem c1_shortform_amended (c : MultiKueueExternalFramework)
    (h : 3 ≤ (splitOnDot c.name).length) :
    validateConfig c = none ∧
    ∃ g, parseKindArg c.name = some g ∧
      mapLookup (gvkToString g)
        (LoadConfigurations NewConfigManager [c]).1.configs = some c := by
  obtain ⟨hv, g, hg⟩ := validateConfig_of_parts c h
  refine ⟨hv, g, hg, ?_⟩
  have h1 : (LoadConfigurations NewConfigManager [c]).1.configs
      = (loadStep (([] : ConfigMap), 0) c).1 := rfl
  rw [h1, loadStep_valid _ _ c g hv hg]
  show mapLookup (gvkToString g) (mapInsert (gvkToString g) c []) = some c
  rw [mapLookup_mapInsert]
  simp

/-- C1 amended, at the concrete short form "Pod.v1.". -/
theorem c1_shortform_amended_witness :
    validateConfig ⟨"Pod.v1."⟩ = none ∧
    ∃ g, parseKindArg (MultiKueueExternalFramework.name ⟨"Pod.v1."⟩) = some g ∧
      mapLookup (gvkToString g)
        (LoadConfigurations NewConfigManager [⟨"Pod.v1."⟩]).1.configs
        = some ⟨"Pod.v1."⟩ :=
  c1_shortform_amended ⟨"Pod.v1."⟩ (by decide)

/-- C2: `LoadConfigurations` discards all prior state before processing —
the result (mapping and error alike) is the same from any two prior
registries, and equals the result from a freshly constructed registry. -/
theorem c2_load_replaces_prior_state (cm₁ cm₂ : ConfigManager)
    (batch : List MultiKueueExternalFramework) :
    LoadConfigurations cm₁ batch = LoadConfigurations cm₂ batch ∧
    (LoadConfigurations cm₁ batch).1.configs
      = (LoadConfigurations NewConfigManager batch).1.configs :=
  ⟨rfl, rfl⟩

/-- C3: when at least one entry of the batch fails validation, Load
returns a non-nil error whose count is exactly the number of rejected
entries, and the final mapping equals the mapping obtained from the batch
restricted to the entries that validate — rejected entries are skipped
without stopping the processing of the rest. -/
theorem c3_invalid_entries_skipped (cm : ConfigManager)
    (batch : List MultiKueueExternalFramework)
    (h : 0 < batch.countP fun c => (validateConfig c).isSome) :
    (LoadConfigurations cm batch).2
        = some (batch.countP fun c => (validateConfig c).isSome) ∧
    (LoadConfigurations cm batch).1.configs
        = (LoadConfigurations cm
            (batch.filter fun c => (validateConfig c).isNone)).1.configs := by
  have hsnd : (batch.foldl loadStep (([] : ConfigMap), 0)).2
      = batch.countP fun c => (validateConfig c).isSome := by
    simpa using foldl_loadStep_snd batch [] 0
  constructor
  · show (if (batch.foldl loadStep (([] : ConfigMap), 0)).2 > 0
        then some ((batch.foldl loadStep (([] : ConfigMap), 0)).2)
        else none) = _
    rw [hsnd, if_pos h]
  · show (batch.foldl loadStep (([] : ConfigMap), 0)).1
        = ((batch.filter fun c => (validateConfig c).isNone).foldl
            loadStep (([] : ConfigMap), 0)).1
    exact foldl_loadStep_fst_filter batch [] 0 0

/-- C3 at a concrete batch with two invalid entries among three. -/
theorem c3_invalid_entries_skipped_witness :
    (LoadConfigurations NewConfigManager [⟨"Pod.v1."⟩, ⟨"Pod"⟩, ⟨""⟩]).2
        = some (([⟨"Pod.v1."⟩, ⟨"Pod"⟩, ⟨""⟩] :
            List MultiKueueExternalFramework).countP
            fun c => (validateConfig c).isSome) ∧
    (LoadConfigurations NewConfigManager [⟨"Pod.v1."⟩, ⟨"Pod"⟩, ⟨""⟩]).1.configs
        = (LoadConfigurations NewConfigManager
            (([⟨"Pod.v1."⟩, ⟨"Pod"⟩, ⟨""⟩] :
              List MultiKueueExternalFramework).filter
              fun c => (validateConfig c).isNone)).1.configs :=
  c3_invalid_entries_skipped NewConfigManager [⟨"Pod.v1."⟩, ⟨"Pod"⟩, ⟨""⟩]
    (by decide)

/-- C4: two entries in one batch whose names parse to the same canonical
identifier string yield exactly one stored ConfigEntry — the later one —
and no error. -/
theorem c4_last_write_wins (cm : ConfigManager)
    (c₁ c₂ : MultiKueueExternalFramework) (g₁ g₂ : GroupVersionKind)
    (hv₁ : validateConfig c₁ = none) (hp₁ : parseKindArg c₁.name = some g₁)
    (hv₂ : validateConfig c₂ = none) (hp₂ : parseKindArg c₂.name = some g₂)
    (hk : gvkToString g₁ = gvkToString g₂) :
    (LoadConfigurations cm [c₁, c₂]).1.configs = [(gvkToString g₂, c₂)] ∧
    (LoadConfigurations cm [c₁, c₂]).2 = none := by
  have h2 : [c₁, c₂].foldl loadStep (([] : ConfigMap), 0)
      = (mapInsert (gvkToString g₂) c₂ (mapInsert (gvkToString g₁) c₁ []), 0) := by
    rw [List.foldl_cons, loadStep_valid _ _ c₁ g₁ hv₁ hp₁,
        List.foldl_cons, loadStep_valid _ _ c₂ g₂ hv₂ hp₂, List.foldl_nil]
  have h3 : mapInsert (gvkToString g₂) c₂ (mapInsert (gvkToString g₁) c₁ [])
      = [(gvkToString g₂, c₂)] := by
    rw [hk]
    simp [mapInsert]
  constructor
  · show ([c₁, c₂].foldl loadStep (([] : ConfigMap), 0)).1 = _
    rw [h2, h3]
  · show (if ([c₁, c₂].foldl loadStep (([] : ConfigMap), 0)).2 > 0
        then some (([c₁, c₂].foldl loadStep (([] : ConfigMap), 0)).2)
        else none) = none
    rw [h2]
    rfl

/-- C4 at two distinct concrete names whose canonical identifiers
collide: "Pod.v1.a/b" and "Pod.b/v1.a" both canonicalise to
"a/b/v1, Kind=Pod"; the later entry wins and no error is reported. -/
theorem c4_last_write_wins_witness :
    (LoadConfigurations NewConfigManager
        [⟨"Pod.v1.a/b"⟩, ⟨"Pod.b/v1.a"⟩]).1.configs
      = [(gvkToString ⟨"a", "b/v1", "Pod"⟩, ⟨"Pod.b/v1.a"⟩)] ∧
    (LoadConfigurations NewConfigManager
        [⟨"Pod.v1.a/b"⟩, ⟨"Pod.b/v1.a"⟩]).2 = none :=
  c4_last_write_wins NewConfigManager ⟨"Pod.v1.a/b"⟩ ⟨"Pod.b/v1.a"⟩
    ⟨"a/b", "v1", "Pod"⟩ ⟨"a", "b/v1", "Pod"⟩
    (by decide) (by decide) (by decide) (by decide) (by decide)

/-- C5: round-trip — every entry of the batch that validates, with name
parsing to identifier `g`, is found by a subsequent `GetAdapter g`: the
result is present (non-nil) and the canonical string of the returned
handle's identifier equals the canonical string of `g`. -/
theorem c5_load_lookup_roundtrip (cm : ConfigManager)
    (batch : List MultiKueueExternalFramework)
    (c : MultiKueueExternalFramework) (g : GroupVersionKind)
    (hc : c ∈ batch) (hv : validateConfig c = none)
    (hp : parseKindArg c.name = some g) :
    GetAdapter (LoadConfigurations cm batch).1 g = some ⟨g⟩ ∧
    gvkToString (genericAdapter.gvk ⟨g⟩) = gvkToString g := by
  refine ⟨?_, rfl⟩
  have hsome := foldl_loadStep_key_present batch c g hv hp ([], 0) hc
  unfold GetAdapter
  split
  · next hlook =>
      have h0 : mapLookup (gvkToString g)
          ((batch.foldl loadStep (([] : ConfigMap), 0)).1) = none := hlook
      rw [h0] at hsome
      exact absurd hsome (by simp)
  · rfl

/-- C5 at the concrete batch `["Pod.v1."]`. -/
theorem c5_load_lookup_roundtrip_witness :
    GetAdapter (LoadConfigurations NewConfigManager [⟨"Pod.v1."⟩]).1
        ⟨"", "v1", "Pod"⟩ = some ⟨⟨"", "v1", "Pod"⟩⟩ ∧
    gvkToString (genericAdapter.gvk ⟨⟨"", "v1", "Pod"⟩⟩)
        = gvkToString ⟨"", "v1", "Pod"⟩ :=
  c5_load_lookup_roundtrip NewConfigManager [⟨"Pod.v1."⟩] ⟨"Pod.v1."⟩
    ⟨"", "v1", "Pod"⟩ (by simp) (by decide) (by decide)

/-- C6: a batch in which every entry validates and all canonical
identifiers are pairwise distinct loads without error, and a subsequent
`GetAllAdapters` yields exactly one adapter per input entry. -/
theorem c6_unique_valid_batch (cm : ConfigManager)
    (batch : List MultiKueueExternalFramework)
    (hval : ∀ c ∈ batch, validateConfig c = none)
    (hnd : (batch.map entryKey).Nodup) :
    (LoadConfigurations cm batch).2 = none ∧
    (GetAllAdapters (LoadConfigurations cm batch).1).length = batch.length := by
  have hsnd : (batch.foldl loadStep (([] : ConfigMap), 0)).2 = 0 := by
    rw [foldl_loadStep_snd, Nat.zero_add, List.countP_eq_zero]
    intro c hc
    simp [hval c hc]
  constructor
  · show (if (batch.foldl loadStep (([] : ConfigMap), 0)).2 > 0
        then some ((batch.foldl loadStep (([] : ConfigMap), 0)).2)
        else none) = none
    rw [hsnd]
    rfl
  · have hlen : (batch.foldl loadStep (([] : ConfigMap), 0)).1.length
        = batch.length := by
      have hfresh : ∀ c ∈ batch, ∀ k, entryKey c = some k →
          mapLookup k ([] : ConfigMap) = none := fun _ _ _ _ => rfl
      simpa using foldl_loadStep_all_valid_fresh batch [] 0 hval hnd hfresh
    have hvals : ∀ q ∈ (batch.foldl loadStep (([] : ConfigMap), 0)).1,
        (parseKindArg q.2.name).isSome :=
      foldl_loadStep_values_parse batch ([], 0) (by intro q hq; cases hq)
    have hGA : GetAllAdapters (LoadConfigurations cm batch).1
        = ((batch.foldl loadStep (([] : ConfigMap), 0)).1).filterMap
            (fun p => (parseKindArg p.2.name).map
              fun gvk => ({ gvk := gvk } : genericAdapter)) := rfl
    have hX : ∀ q ∈ (batch.foldl loadStep (([] : ConfigMap), 0)).1,
        ((fun p => (parseKindArg p.2.name).map
          fun gvk => ({ gvk := gvk } : genericAdapter)) q).isSome := by
      intro q hq
      have hq' := hvals q hq
      cases hpq : parseKindArg q.2.name with
      | none => rw [hpq] at hq'; exact absurd hq' (by simp)
      | some g => simp [hpq]
    rw [hGA, length_filterMap_all_some _ _ hX, hlen]

/-- C6 at a concrete two-entry batch with distinct identifiers. -/
theorem c6_unique_valid_batch_witness :
    (LoadConfigurations NewConfigManager
        [⟨"Pod.v1."⟩, ⟨"Job.v1.batch"⟩]).2 = none ∧
    (GetAllAdapters (LoadConfigurations NewConfigManager
        [⟨"Pod.v1."⟩, ⟨"Job.v1.batch"⟩]).1).length
      = ([⟨"Pod.v1."⟩, ⟨"Job.v1.batch"⟩] :
          List MultiKueueExternalFramework).length :=
  c6_unique_valid_batch NewConfigManager [⟨"Pod.v1."⟩, ⟨"Job.v1.batch"⟩]
    (by decide) (by decide)

/-- C7: loading the same valid batch twice in a row leaves the registry
with exactly the contents of a single load — `LoadConfigurations` is
idempotent (indeed its result never depends on the prior state). -/
theorem c7_load_idempotent (cm : ConfigManager)
    (batch : List MultiKueueExternalFramework)
    (_hval : ∀ c ∈ batch, validateConfig c = none) :
    LoadConfigurations (LoadConfigurations cm batch).1 batch
      = LoadConfigurations cm batch := rfl

/-- C7 at the concrete valid batch `["Pod.v1."]`. -/
theorem c7_load_idempotent_witness :
    LoadConfigurations
        (LoadConfigurations NewConfigManager [⟨"Pod.v1."⟩]).1 [⟨"Pod.v1."⟩]
      = LoadConfigurations NewConfigManager [⟨"Pod.v1."⟩] :=
  c7_load_idempotent NewConfigManager [⟨"Pod.v1."⟩] (by decide)

/-- C8: `GetAdapter` on an identifier whose canonical string is not a key
of the mapping returns the explicit absent result (nil), never an error —
the operation's only outcomes are a present handle or nil, and the
embedding of the method is a pure function of the registry, which it
leaves unchanged. -/
theorem c8_lookup_absent (cm : ConfigManager) (g : GroupVersionKind)
    (h : mapLookup (gvkToString g) cm.configs = none) :
    GetAdapter cm g = none := by
  unfold GetAdapter
  rw [h]

/-- C8 at a never-loaded identifier on the fresh registry. -/
theorem c8_lookup_absent_witness :
    GetAdapter NewConfigManager ⟨"", "v1", "Pod"⟩ = none :=
  c8_lookup_absent NewConfigManager ⟨"", "v1", "Pod"⟩ (by decide)

/-- C9: loading the empty batch returns no error, leaves the mapping
empty, and a subsequent `GetAllAdapters` yields the empty sequence. -/
theorem c9_empty_batch (cm : ConfigManager) :
    (LoadConfigurations cm []).2 = none ∧
    GetAllAdapters (LoadConfigurations cm []).1 = [] ∧
    (LoadConfigurations cm []).1.configs = [] :=
  ⟨rfl, rfl, rfl⟩

/-- C10: whenever `validateConfig` passes an entry, the second parse of
the same name inside the loop yields a non-nil identifier (parsing is a
deterministic function of the string), so the loop's second error branch
is unreachable and the error `Load` reports counts exactly one failure
per entry rejected by `validateConfig`. -/
theorem c10_second_parse_unreachable (cm : ConfigManager)
    (c : MultiKueueExternalFramework)
    (batch : List MultiKueueExternalFramework)
    (hv : validateConfig c = none) :
    (∃ g, parseKindArg c.name = some g) ∧
    (LoadConfigurations cm batch).2 =
      (if batch.countP (fun d => (validateConfig d).isSome) = 0 then none
       else some (batch.countP fun d => (validateConfig d).isSome)) := by
  refine ⟨validateConfig_none_parse c hv, ?_⟩
  have hsnd : (batch.foldl loadStep (([] : ConfigMap), 0)).2
      = batch.countP fun d => (validateConfig d).isSome := by
    simpa using foldl_loadStep_snd batch [] 0
  show (if (batch.foldl loadStep (([] : ConfigMap), 0)).2 > 0
      then some ((batch.foldl loadStep (([] : ConfigMap), 0)).2)
      else none) = _
  rw [hsnd]
  rcases Nat.eq_zero_or_pos (batch.countP fun d => (validateConfig d).isSome)
    with h0 | h0
  · rw [h0]
    rfl
  · rw [if_pos h0, if_neg (Nat.pos_iff_ne_zero.mp h0)]

/-- C10 at a concrete validated entry and a batch with one bad entry. -/
theorem c10_second_parse_unreachable_witness :
    (∃ g, parseKindArg (MultiKueueExternalFramework.name ⟨"Pod.v1."⟩)
        = some g) ∧
    (LoadConfigurations NewConfigManager [⟨"Pod"⟩]).2 =
      (if ([⟨"Pod"⟩] : List MultiKueueExternalFramework).countP
          (fun d => (validateConfig d).isSome) = 0 then none
       else some (([⟨"Pod"⟩] : List MultiKueueExternalFramework).countP
          fun d => (validateConfig d).isSome)) :=
  c10_second_parse_unreachable NewConfigManager ⟨"Pod.v1."⟩ [⟨"Pod"⟩]
    (by decide)

end Generic
